import Mathlib

/-!
Verification of the geonote geospatial index engine
(`solrnotes/solrnotes.go`), as a shallow embedding in Lean 4.

Modelling conventions:

* `uuid.UUID` and `float64` are abstract type parameters `U` and `F`.
  The external library primitives the engine calls on them
  (`uuid.UUID.String`, `uuid.FromString`, `strconv.FormatFloat(c, 'f', -1, 64)`,
  `strconv.ParseFloat(s, 64)`) are bundled in a `Prims` record; Go style
  `(value, error)` returns become `value × Option String` pairs, and the Go
  zero values that those libraries return alongside a non-nil error are part
  of the record (`zeroU`, `zeroF`, `negOneF`).  Theorems that depend on the
  documented behaviour of those libraries (for example that shortest
  round-trip float formatting re-parses to the identical value and never
  emits a comma) take that behaviour as an explicit hypothesis.
* `time.Time` together with `Format(time.RFC3339)` / `time.Parse(time.RFC3339, s)`
  is modelled concretely: a broken-down clock reading `GoTime` plus an
  executable RFC3339 renderer and parser.  The RFC3339 layout carries no
  fractional second, so the renderer ignores `nsec`, exactly as Go does; the
  parser accepts an optional fractional second and validates calendar field
  ranges, as Go does.
* `strings.Split(s, ",")` is modelled by the executable `splitOnComma`,
  splitting at every comma and keeping empty tokens, which is the behaviour
  of the Go function for a one-character separator.
* The Solr connection (`conn.Select` / `conn.Update` of the Go-Solr library
  plus the remote index) is an abstract `Conn` record over an abstract state.
  A concrete instance `modelConn` implements the index semantics the spec
  assigns to the external index (conjunctive `fq` filtering, row cap,
  add-replaces-by-id, delete-by-id-list) over a journaling state, so that
  the queries and updates the engine issues are observable.
* A Go result row (`solr.Document` with the seven fields the engine reads)
  is the record `Row`; the `.(string)` / `.(bool)` type assertions are
  reflected in the field types, i.e. rows are assumed well typed, which is
  the only shape the claims exercise.
-/

namespace GeoNote

/-- A broken-down `time.Time` reading: calendar fields, nanoseconds and the
zone offset in minutes.  This is the information `Format(RFC3339)` and
`Parse(RFC3339, _)` exchange. -/
structure GoTime where
  year : Nat
  month : Nat
  day : Nat
  hour : Nat
  minute : Nat
  second : Nat
  nsec : Nat
  offMin : Int
deriving DecidableEq, Repr

/-- The zero `time.Time`: January 1, year 1, 00:00:00 UTC.  `time.Parse`
returns it alongside a non-nil error. -/
def GoTime.zero : GoTime := ⟨1, 1, 1, 0, 0, 0, 0, 0⟩

def digitVal (c : Char) : Nat := c.toNat - 48

/-- Read exactly `n` decimal digits, most significant first. -/
def readNatFixed : Nat → Nat → List Char → Option (Nat × List Char)
  | 0, acc, cs => some (acc, cs)
  | n + 1, acc, c :: cs =>
      if c.isDigit then readNatFixed n (acc * 10 + digitVal c) cs else none
  | _ + 1, _, [] => none

def expectChar (c : Char) : List Char → Option (List Char)
  | c' :: cs => if c' = c then some cs else none
  | [] => none

def leapYear (y : Nat) : Bool := y % 4 = 0 && (y % 100 ≠ 0 || y % 400 = 0)

def daysInMonth (y m : Nat) : Nat :=
  if m = 2 then (if leapYear y then 29 else 28)
  else if m = 4 || m = 6 || m = 9 || m = 11 then 30
  else 31

/-- Longest prefix of decimal digits and the remainder. -/
def takeDigits : List Char → List Char × List Char
  | [] => ([], [])
  | c :: cs =>
      if c.isDigit then
        let p := takeDigits cs
        (c :: p.1, p.2)
      else ([], c :: cs)

/-- Nanoseconds denoted by a fractional-second digit string: the first nine
digits, right-padded with zeros. -/
def fracNanos (ds : List Char) : Nat :=
  ((ds.take 9) ++ List.replicate (9 - ds.length) '0').foldl
    (fun acc c => acc * 10 + digitVal c) 0

/-- Optional fractional second.  As in Go, it is consumed only when a `.`
(or `,`) immediately followed by a digit is present. -/
def parseFracPart (cs : List Char) : Nat × List Char :=
  match cs with
  | c :: c2 :: rest =>
      if (c = '.' || c = ',') && c2.isDigit then
        let p := takeDigits (c2 :: rest)
        (fracNanos p.1, p.2)
      else (0, cs)
  | _ => (0, cs)

/-- The `Z07:00` layout element: `Z` or a signed `hh:mm` offset. -/
def parseOffset (cs : List Char) : Option (Int × List Char) :=
  match cs with
  | [] => none
  | c :: rest =>
      if c = 'Z' then some (0, rest)
      else if c = '+' || c = '-' then
        match readNatFixed 2 0 rest with
        | none => none
        | some (hh, cs1) =>
          match expectChar ':' cs1 with
          | none => none
          | some cs2 =>
            match readNatFixed 2 0 cs2 with
            | none => none
            | some (mm, cs3) =>
              let mag : Int := (hh * 60 + mm : Nat)
              some (if c = '-' then -mag else mag, cs3)
      else none

/-- `time.Parse(time.RFC3339, _)` on the character list: fixed-width numeric
fields, the literal separators of the layout, an optional fractional second
and the zone; calendar ranges are validated. -/
def parseRFC3339Core (cs0 : List Char) : Option GoTime := do
  let (y, cs) ← readNatFixed 4 0 cs0
  let cs ← expectChar '-' cs
  let (mo, cs) ← readNatFixed 2 0 cs
  let cs ← expectChar '-' cs
  let (dy, cs) ← readNatFixed 2 0 cs
  let cs ← expectChar 'T' cs
  let (hh, cs) ← readNatFixed 2 0 cs
  let cs ← expectChar ':' cs
  let (mi, cs) ← readNatFixed 2 0 cs
  let cs ← expectChar ':' cs
  let (ss, cs) ← readNatFixed 2 0 cs
  let fr := parseFracPart cs
  let (off, cs) ← parseOffset fr.2
  if cs = [] ∧ 1 ≤ mo ∧ mo ≤ 12 ∧ 1 ≤ dy ∧ dy ≤ daysInMonth y mo ∧
      hh ≤ 23 ∧ mi ≤ 59 ∧ ss ≤ 59 then
    some ⟨y, mo, dy, hh, mi, ss, fr.1, off⟩
  else none

/-- Go-style `time.Parse(time.RFC3339, s)`: the parsed time, or the zero time
together with an error. -/
def parseRFC3339 (s : String) : GoTime × Option String :=
  match parseRFC3339Core s.data with
  | some t => (t, none)
  | none => (GoTime.zero, some ("cannot parse as RFC3339: " ++ s))

def pad2 (n : Nat) : String := if n < 10 then "0" ++ toString n else toString n

def pad4 (n : Nat) : String :=
  if n < 10 then "000" ++ toString n
  else if n < 100 then "00" ++ toString n
  else if n < 1000 then "0" ++ toString n
  else toString n

def formatOffset (offMin : Int) : String :=
  if offMin = 0 then "Z"
  else
    (if offMin < 0 then "-" else "+") ++
      pad2 (offMin.natAbs / 60) ++ ":" ++ pad2 (offMin.natAbs % 60)

/-- `t.Format(time.RFC3339)`.  The layout has no fractional-second element,
so the rendering does not depend on `nsec`. -/
def formatRFC3339 (t : GoTime) : String :=
  pad4 t.year ++ "-" ++ pad2 t.month ++ "-" ++ pad2 t.day ++ "T" ++
    pad2 t.hour ++ ":" ++ pad2 t.minute ++ ":" ++ pad2 t.second ++
    formatOffset t.offMin

/-- `strings.Split(l, [','])` on character lists: split at every comma,
keeping empty tokens. -/
def splitCharsOnComma : List Char → List (List Char)
  | [] => [[]]
  | c :: cs =>
      let r := splitCharsOnComma cs
      if c = ',' then [] :: r
      else
        match r with
        | t :: ts => (c :: t) :: ts
        | [] => [[c]]

/-- `strings.Split(s, ",")`. -/
def splitOnComma (s : String) : List String :=
  (splitCharsOnComma s.data).map String.mk

/-- The external identifier and float primitives the engine calls, with Go
`(value, error)` signatures, plus the Go zero values involved. -/
structure Prims (U F : Type) where
  uuidToString : U → String
  uuidFromString : String → U × Option String
  zeroU : U
  formatFloat : F → String
  parseFloat : String → F × Option String
  zeroF : F
  negOneF : F

/-- The `Document` struct of `solrnotes.go`. -/
structure Document (U F : Type) where
  id : U
  sender : U
  recipient : U
  latitude : F
  longitude : F
  timeSent : GoTime
  read : Bool
  deleted : Bool
deriving DecidableEq

/-- Index field-name constants of `solrnotes.go`. -/
def ID : String := "id"

def SENDER : String := "sender_s"

def RECIPIENT : String := "recipient_s"

def LOCATION : String := "location_p"

def TIMESENT : String := "timeSent_dt"

def READ : String := "read_b"

def DELETED : String := "deleted_b"

/-- A raw Solr result row carrying the seven fields the engine reads, with
the wire types the code asserts (`.(string)` / `.(bool)`). -/
structure Row where
  id : String
  sender : String
  recipient : String
  location : String
  timeSent : String
  read : Bool
  deleted : Bool
deriving DecidableEq, Repr

/-- `formatCoordinateFloat`: `strconv.FormatFloat(c, 'f', -1, 64)`. -/
def formatCoordinateFloat {U F : Type} (P : Prims U F) (c : F) : String :=
  P.formatFloat c

/-- `getCoordinateString`. -/
def getCoordinateString {U F : Type} (P : Prims U F) (doc : Document U F) : String :=
  formatCoordinateFloat P doc.latitude ++ "," ++ formatCoordinateFloat P doc.longitude

/-- `coordinatesFromString`: split on the comma, demand exactly two tokens,
parse each as a float; on any failure return `(-1.0, -1.0, error)`. -/
def coordinatesFromString {U F : Type} (P : Prims U F) (s : String) :
    F × F × Option String :=
  match splitOnComma s with
  | [t0, t1] =>
    match P.parseFloat t0 with
    | (_, some e) => (P.negOneF, P.negOneF, some e)
    | (lat, none) =>
      match P.parseFloat t1 with
      | (_, some e) => (P.negOneF, P.negOneF, some e)
      | (lon, none) => (lat, lon, none)
  | _ => (P.negOneF, P.negOneF, some "Failed to parse coordinates.")

/-- `formatGeofilter`. -/
def formatGeofilter {U F : Type} (P : Prims U F) (lat lon radiusKm : F) : String :=
  "\x7b!geofilt sfield=" ++ LOCATION ++ " pt=" ++ formatCoordinateFloat P lat ++
    "," ++ formatCoordinateFloat P lon ++ " d=" ++ formatCoordinateFloat P radiusKm ++ "\x7d"

/-- The field map inside the `add` envelope of `getUpdateJson`. -/
def encodeRow {U F : Type} (P : Prims U F) (doc : Document U F) : Row where
  id := P.uuidToString doc.id
  sender := P.uuidToString doc.sender
  recipient := P.uuidToString doc.recipient
  location := getCoordinateString P doc
  timeSent := formatRFC3339 doc.timeSent
  read := doc.read
  deleted := doc.deleted

/-- A Solr update envelope: `add` with a document field map, or `delete`
with a list of id strings. -/
inductive SolrUpdate where
  | add : Row → SolrUpdate
  | del : List String → SolrUpdate
deriving DecidableEq, Repr

/-- `getUpdateJson`. -/
def getUpdateJson {U F : Type} (P : Prims U F) (doc : Document U F) : SolrUpdate :=
  .add (encodeRow P doc)

/-- The zero value of `make([]Document, n)` slots. -/
def zeroDocument {U F : Type} (P : Prims U F) : Document U F where
  id := P.zeroU
  sender := P.zeroU
  recipient := P.zeroU
  latitude := P.zeroF
  longitude := P.zeroF
  timeSent := GoTime.zero
  read := false
  deleted := false

/-- One iteration of the decoding loop of `docsFromResults`: the slot starts
as the zero document; each field is assigned the value the parser returned
(error value included, exactly as the Go multi-assignments do) and a non-nil
error `continue`s, leaving the later fields untouched. -/
def decodeRow {U F : Type} (P : Prims U F) (r : Row) : Document U F :=
  let d0 := zeroDocument P
  match P.uuidFromString r.id with
  | (v, some _) => { d0 with id := v }
  | (v, none) =>
    let d1 := { d0 with id := v }
    match P.uuidFromString r.sender with
    | (v2, some _) => { d1 with sender := v2 }
    | (v2, none) =>
      let d2 := { d1 with sender := v2 }
      match P.uuidFromString r.recipient with
      | (v3, some _) => { d2 with recipient := v3 }
      | (v3, none) =>
        let d3 := { d2 with recipient := v3 }
        match coordinatesFromString P r.location with
        | (la, lo, some _) => { d3 with latitude := la, longitude := lo }
        | (la, lo, none) =>
          let d4 := { d3 with latitude := la, longitude := lo }
          match parseRFC3339 r.timeSent with
          | (t, some _) => { d4 with timeSent := t }
          | (t, none) =>
            let d5 := { d4 with timeSent := t }
            { d5 with read := r.read, deleted := r.deleted }

/-- `docPointers`: one pointer per slice slot; at the value level, the
identity. -/
def docPointers {U F : Type} (docs : List (Document U F)) : List (Document U F) :=
  docs

/-- `docsFromResults`: a pre-sized slice, one slot per result row, each slot
filled by the decoding loop; `docPointers` then returns every slot. -/
def docsFromResults {U F : Type} (P : Prims U F) (results : List Row) :
    List (Document U F) :=
  docPointers (results.map (decodeRow P))

/-- A `solr.Query`: the `q` and `fq` URL parameters and the row cap. -/
structure Query where
  q : List String
  fq : List String
  rows : Nat
deriving DecidableEq, Repr

/-- The abstract Solr connection: `conn.Select` and `conn.Update` against an
abstract external state. -/
structure Conn (σ : Type) where
  select : Query → σ → Except String (List Row) × σ
  update : SolrUpdate → Bool → σ → Option String × σ

/-- The query `GetDoc` issues: main query and filter both `id:<id>`, row
limit 1. -/
def getDocQuery {U F : Type} (P : Prims U F) (id : U) : Query where
  q := [ID ++ ":" ++ P.uuidToString id]
  fq := [ID ++ ":" ++ P.uuidToString id]
  rows := 1

def notFoundMessage {U F : Type} (P : Prims U F) (id : U) : String :=
  "Could not find any document for id: " ++ P.uuidToString id

def tooManyMessage {U F : Type} (P : Prims U F) (id : U) : String :=
  "Somehow found far too many documents while querying for id: " ++ P.uuidToString id

/-- `AddDoc`. -/
def AddDoc {U F σ : Type} (P : Prims U F) (C : Conn σ) (doc : Document U F)
    (st : σ) : Option String × σ :=
  C.update (getUpdateJson P doc) true st

/-- `FindDocsNearby`. -/
def FindDocsNearby {U F σ : Type} (P : Prims U F) (C : Conn σ) (recipient : U)
    (latitude longitude radiusKm : F) (maxRows : Nat) (st : σ) :
    (Option (List (Document U F)) × Option String) × σ :=
  let geofilter := formatGeofilter P latitude longitude radiusKm
  let q : Query :=
    { q := ["*:*"]
      fq := [RECIPIENT ++ ":" ++ P.uuidToString recipient,
             "!" ++ DELETED ++ ":" ++ "true",
             geofilter]
      rows := maxRows }
  match C.select q st with
  | (.error e, st') => ((none, some e), st')
  | (.ok results, st') => ((some (docsFromResults P results), none), st')

/-- `GetDoc`, returning the Go pair `(*Document, error)` as
`Option Document × Option String`. -/
def GetDoc {U F σ : Type} (P : Prims U F) (C : Conn σ) (id : U) (st : σ) :
    (Option (Document U F) × Option String) × σ :=
  match C.select (getDocQuery P id) st with
  | (.error e, st') => ((none, some e), st')
  | (.ok results, st') =>
    let docs := docsFromResults P results
    if docs.length > 1 then ((none, some (tooManyMessage P id)), st')
    else if docs.length < 1 then ((none, some (notFoundMessage P id)), st')
    else ((docs[0]?, none), st')

/-- `PurgeDocs`. -/
def PurgeDocs {U F σ : Type} (P : Prims U F) (C : Conn σ) (ids : List U)
    (st : σ) : Option String × σ :=
  let deleteIds := ids.map P.uuidToString
  C.update (.del deleteIds) true st

/-- Outcome of the two mark mutations: Go returns `error`, but when the
fetch fails `doc` is nil and `doc.deleted = true` dereferences a nil
pointer, which is the `nilDeref` outcome. -/
inductive GoOutcome where
  | ok : GoOutcome
  | err : String → GoOutcome
  | nilDeref : GoOutcome
deriving DecidableEq, Repr

/-- `MarkDocDeleted`: fetch, then — with the fetch error merely logged —
flip `deleted` on the fetched pointer and rewrite the whole document. -/
def MarkDocDeleted {U F σ : Type} (P : Prims U F) (C : Conn σ) (id : U)
    (st : σ) : GoOutcome × σ :=
  match GetDoc P C id st with
  | ((optDoc, _optErr), st') =>
    match optDoc with
    | none => (.nilDeref, st')
    | some doc =>
      let doc' := { doc with deleted := true }
      match C.update (getUpdateJson P doc') true st' with
      | (some e, st'') => (.err e, st'')
      | (none, st'') => (.ok, st'')

/-- `MarkDocRead`: same shape as `MarkDocDeleted`, flipping `read`. -/
def MarkDocRead {U F σ : Type} (P : Prims U F) (C : Conn σ) (id : U)
    (st : σ) : GoOutcome × σ :=
  match GetDoc P C id st with
  | ((optDoc, _optErr), st') =>
    match optDoc with
    | none => (.nilDeref, st')
    | some doc =>
      let doc' := { doc with read := true }
      match C.update (getUpdateJson P doc') true st' with
      | (some e, st'') => (.err e, st'')
      | (none, st'') => (.ok, st'')

/-! ## A model of the external index

The engine sends raw filter strings; the model index matches a filter
against a row by comparing it with the row's own `field:value` renderings,
with a leading `!` negating, which is the fragment of Solr filter semantics
the engine relies on (the spec: filters are combined with logical AND, an
`add` fully replaces the document with the same id, `delete` removes the
listed ids, and the row cap truncates). -/

def rowMatchesFilterPos (r : Row) (f : String) : Bool :=
  (f == ID ++ ":" ++ r.id) ||
  (f == SENDER ++ ":" ++ r.sender) ||
  (f == RECIPIENT ++ ":" ++ r.recipient) ||
  (f == LOCATION ++ ":" ++ r.location) ||
  (f == TIMESENT ++ ":" ++ r.timeSent) ||
  (f == READ ++ ":" ++ toString r.read) ||
  (f == DELETED ++ ":" ++ toString r.deleted)

def rowMatchesFilter (r : Row) (f : String) : Bool :=
  match f.data with
  | c :: cs =>
      if c = '!' then !(rowMatchesFilterPos r (String.mk cs))
      else rowMatchesFilterPos r f
  | [] => rowMatchesFilterPos r f

/-- The model index answers a query: conjunction of the `fq` filters, then
the row cap. -/
def modelSelect (q : Query) (rows : List Row) : List Row :=
  (rows.filter fun r => q.fq.all (rowMatchesFilter r)).take q.rows

/-- `add` fully replaces the document with the same id; `delete` removes
exactly the listed ids. -/
def applyUpdate (u : SolrUpdate) (rows : List Row) : List Row :=
  match u with
  | .add r => (rows.filter fun x => x.id ≠ r.id) ++ [r]
  | .del ids => rows.filter fun x => !(ids.contains x.id)

/-- The model index state: the stored rows plus journals of every query and
every update the engine issued. -/
structure ModelState where
  rows : List Row
  selects : List Query
  updates : List SolrUpdate
deriving DecidableEq, Repr

/-- The model connection: selects and updates never fail at the transport
level, answer from `rows`, and journal every operation. -/
def modelConn : Conn ModelState where
  select := fun q st =>
    (.ok (modelSelect q st.rows), { st with selects := st.selects ++ [q] })
  update := fun u _commit st =>
    (none, { st with rows := applyUpdate u st.rows, updates := st.updates ++ [u] })

def emptyModelState : ModelState := ⟨[], [], []⟩

/-! ## Concrete primitive instances for evaluation -/

/-- A string-valued instance of the primitives: identifiers and floats are
carried as their wire strings; the empty string is the one unparsable
value of either kind. -/
def strPrims : Prims String String where
  uuidToString := fun u => u
  uuidFromString := fun s =>
    if s = "" then ("", some "uuid: incorrect UUID length") else (s, none)
  zeroU := ""
  formatFloat := fun f => f
  parseFloat := fun s =>
    if s = "" then ("", some "invalid syntax") else (s, none)
  zeroF := ""
  negOneF := "-1"

def natFromDigits (ds : List Char) : Nat :=
  ds.foldl (fun a c => a * 10 + digitVal c) 0

/-- Signed decimal integer parsing on the character list. -/
def intFromChars (cs : List Char) : Option Int :=
  match cs with
  | '-' :: ds =>
      if ds ≠ [] ∧ ds.all Char.isDigit then some (-(natFromDigits ds : Int)) else none
  | ds =>
      if ds ≠ [] ∧ ds.all Char.isDigit then some (natFromDigits ds) else none

/-- An integer-valued instance of the float primitive, to evaluate numeric
pass-through behaviour. -/
def intPrims : Prims String Int where
  uuidToString := fun u => u
  uuidFromString := fun s =>
    if s = "" then ("", some "uuid: incorrect UUID length") else (s, none)
  zeroU := ""
  formatFloat := fun f => toString f
  parseFloat := fun s =>
    match intFromChars s.data with
    | some n => (n, none)
    | none => (0, some "invalid syntax")
  zeroF := 0
  negOneF := -1

/-! ## Helper lemmas -/

theorem splitCharsOnComma_no_comma (l : List Char) (h : ',' ∉ l) :
    splitCharsOnComma l = [l] := by
  induction l with
  | nil => rfl
  | cons c cs ih =>
    have hc : c ≠ ',' := fun hc => h (hc ▸ List.mem_cons_self c cs)
    have hcs : ',' ∉ cs := fun hm => h (List.mem_cons_of_mem c hm)
    simp [splitCharsOnComma, ih hcs, hc]

theorem splitCharsOnComma_append (a b : List Char) (ha : ',' ∉ a) (hb : ',' ∉ b) :
    splitCharsOnComma (a ++ ',' :: b) = [a, b] := by
  induction a with
  | nil => simp [splitCharsOnComma, splitCharsOnComma_no_comma b hb]
  | cons c cs ih =>
    have hc : c ≠ ',' := fun hc => ha (hc ▸ List.mem_cons_self c cs)
    have hcs : ',' ∉ cs := fun hm => ha (List.mem_cons_of_mem c hm)
    simp [splitCharsOnComma, ih hcs, hc]

/-- Splitting `a ++ "," ++ b` on commas recovers `[a, b]` whenever neither
side contains a comma. -/
theorem splitOnComma_pair (a b : String) (ha : ',' ∉ a.data) (hb : ',' ∉ b.data) :
    splitOnComma (a ++ "," ++ b) = [a, b] := by
  have hdata : (a ++ "," ++ b).data = a.data ++ ',' :: b.data := by
    cases a; cases b; simp [String.data_append]
  simp [splitOnComma, hdata, splitCharsOnComma_append a.data b.data ha hb]

/-- The library behaviour the engine relies on, at the field values of one
document: canonical identifier strings re-parse to the same identifier,
shortest round-trip float formatting re-parses to the same float and never
emits a comma (the documented `strconv` contract), and the RFC3339 encoding
of the sent time re-parses to the same time. -/
def PrimsFaithful {U F : Type} (P : Prims U F) (d : Document U F) : Prop :=
  P.uuidFromString (P.uuidToString d.id) = (d.id, none) ∧
  P.uuidFromString (P.uuidToString d.sender) = (d.sender, none) ∧
  P.uuidFromString (P.uuidToString d.recipient) = (d.recipient, none) ∧
  P.parseFloat (P.formatFloat d.latitude) = (d.latitude, none) ∧
  P.parseFloat (P.formatFloat d.longitude) = (d.longitude, none) ∧
  ',' ∉ (P.formatFloat d.latitude).data ∧
  ',' ∉ (P.formatFloat d.longitude).data ∧
  parseRFC3339 (formatRFC3339 d.timeSent) = (d.timeSent, none)

theorem coordinates_roundtrip {U F : Type} (P : Prims U F) (d : Document U F)
    (hla : P.parseFloat (P.formatFloat d.latitude) = (d.latitude, none))
    (hlo : P.parseFloat (P.formatFloat d.longitude) = (d.longitude, none))
    (hca : ',' ∉ (P.formatFloat d.latitude).data)
    (hcb : ',' ∉ (P.formatFloat d.longitude).data) :
    coordinatesFromString P (getCoordinateString P d) =
      (d.latitude, d.longitude, none) := by
  have hsplit := splitOnComma_pair (P.formatFloat d.latitude)
    (P.formatFloat d.longitude) hca hcb
  simp [coordinatesFromString, getCoordinateString, formatCoordinateFloat,
    hsplit, hla, hlo]

theorem decodeRow_encodeRow {U F : Type} (P : Prims U F) (d : Document U F)
    (h : PrimsFaithful P d) : decodeRow P (encodeRow P d) = d := by
  obtain ⟨h1, h2, h3, h4, h5, h6, h7, h8⟩ := h
  have hco := coordinates_roundtrip P d h4 h5 h6 h7
  simp only [decodeRow, encodeRow, h1, h2, h3, hco, h8]

theorem rowMatchesFilter_id (r : Row) (u : String) (hru : r.id = u) :
    rowMatchesFilter r (ID ++ ":" ++ u) = true := by
  cases u with
  | mk l =>
    show (if 'i' = '!' then !(rowMatchesFilterPos r (String.mk ('d' :: ':' :: l)))
          else rowMatchesFilterPos r (ID ++ ":" ++ String.mk l)) = true
    rw [if_neg (by decide)]
    simp [rowMatchesFilterPos, hru]

theorem modelSelect_length_le (q : Query) (rows : List Row) :
    (modelSelect q rows).length ≤ q.rows := by
  simp [modelSelect]

theorem modelSelect_mem_filters (q : Query) (rows : List Row) (r : Row)
    (hr : r ∈ modelSelect q rows) (f : String) (hf : f ∈ q.fq) :
    rowMatchesFilter r f = true := by
  have hmem := List.mem_of_mem_take hr
  have := List.of_mem_filter hmem
  exact List.all_eq_true.mp this f hf

theorem modelConn_honors_rows (q : Query) (st : ModelState) (rows : List Row)
    (st' : ModelState) (h : modelConn.select q st = (.ok rows, st')) :
    rows.length ≤ q.rows := by
  simp only [modelConn, Prod.mk.injEq, Except.ok.injEq] at h
  rcases h with ⟨h1, _⟩
  exact h1 ▸ modelSelect_length_le q st.rows

theorem getDoc_model_singleton {U F : Type} (P : Prims U F) (d : Document U F)
    (hde : decodeRow P (encodeRow P d) = d)
    (st : ModelState) (hrows : st.rows = [encodeRow P d]) :
    GetDoc P modelConn d.id st =
      ((some d, none),
       { st with selects := st.selects ++ [getDocQuery P d.id] }) := by
  have hmatch : rowMatchesFilter (encodeRow P d)
      (ID ++ ":" ++ P.uuidToString d.id) = true :=
    rowMatchesFilter_id _ _ rfl
  have hsel : modelSelect (getDocQuery P d.id) st.rows = [encodeRow P d] := by
    rw [hrows]
    simp [modelSelect, getDocQuery, hmatch]
  simp [GetDoc, modelConn, hsel, docsFromResults, docPointers, hde]

theorem getDoc_model_state {U F : Type} (P : Prims U F) (i : U) (st : ModelState) :
    (GetDoc P modelConn i st).2 =
      { st with selects := st.selects ++ [getDocQuery P i] } := by
  simp only [GetDoc, modelConn]
  split
  · rename_i h
    simp_all
  · rename_i h
    simp_all
    split <;> simp_all

theorem markRead_model_singleton {U F : Type} (P : Prims U F) (d : Document U F)
    (hde : decodeRow P (encodeRow P d) = d)
    (st : ModelState) (hrows : st.rows = [encodeRow P d]) :
    MarkDocRead P modelConn d.id st =
      (.ok, { rows := [encodeRow P { d with read := true }],
              selects := st.selects ++ [getDocQuery P d.id],
              updates := st.updates ++ [getUpdateJson P { d with read := true }] }) := by
  have happly : applyUpdate (getUpdateJson P { d with read := true }) [encodeRow P d]
      = [encodeRow P { d with read := true }] := by
    simp [applyUpdate, getUpdateJson, encodeRow]
  simp only [MarkDocRead]
  rw [getDoc_model_singleton P d hde st hrows]
  simp [modelConn, hrows, happly]

theorem markDeleted_model_singleton {U F : Type} (P : Prims U F) (d : Document U F)
    (hde : decodeRow P (encodeRow P d) = d)
    (st : ModelState) (hrows : st.rows = [encodeRow P d]) :
    MarkDocDeleted P modelConn d.id st =
      (.ok, { rows := [encodeRow P { d with deleted := true }],
              selects := st.selects ++ [getDocQuery P d.id],
              updates := st.updates ++ [getUpdateJson P { d with deleted := true }] }) := by
  have happly : applyUpdate (getUpdateJson P { d with deleted := true }) [encodeRow P d]
      = [encodeRow P { d with deleted := true }] := by
    simp [applyUpdate, getUpdateJson, encodeRow]
  simp only [MarkDocDeleted]
  rw [getDoc_model_singleton P d hde st hrows]
  simp [modelConn, hrows, happly]

theorem markRead_model_updates {U F : Type} (P : Prims U F) (i : U)
    (st : ModelState) (doc : Document U F)
    (h : (GetDoc P modelConn i st).1 = (some doc, none)) :
    (MarkDocRead P modelConn i st).2.updates =
      st.updates ++ [getUpdateJson P { doc with read := true }] := by
  have hst := getDoc_model_state P i st
  rcases hG : GetDoc P modelConn i st with ⟨⟨od, oe⟩, st'⟩
  rw [hG] at h hst
  simp only [Prod.mk.injEq] at h
  rcases h with ⟨h1, h2⟩
  subst h1
  simp only at hst
  subst hst
  simp only [MarkDocRead]
  rw [hG]
  simp [modelConn]

theorem markDeleted_model_updates {U F : Type} (P : Prims U F) (i : U)
    (st : ModelState) (doc : Document U F)
    (h : (GetDoc P modelConn i st).1 = (some doc, none)) :
    (MarkDocDeleted P modelConn i st).2.updates =
      st.updates ++ [getUpdateJson P { doc with deleted := true }] := by
  have hst := getDoc_model_state P i st
  rcases hG : GetDoc P modelConn i st with ⟨⟨od, oe⟩, st'⟩
  rw [hG] at h hst
  simp only [Prod.mk.injEq] at h
  rcases h with ⟨h1, h2⟩
  subst h1
  simp only at hst
  subst hst
  simp only [MarkDocDeleted]
  rw [hG]
  simp [modelConn]

/-! ## Concrete fixtures for evaluation -/

def row1 : Row := ⟨"aa", "bb", "cc", "1,2", "2009-11-10T23:00:00Z", true, false⟩

def rowBadCoord : Row := ⟨"dd", "ee", "ff", "abc", "2009-11-10T23:00:00Z", true, false⟩

def row3 : Row := ⟨"gg", "hh", "ii", "3,4", "2009-11-10T23:00:00Z", false, true⟩

def okDoc : Document String String :=
  ⟨"aa", "bb", "cc", "1.5", "2", ⟨2009, 11, 10, 23, 0, 0, 0, 0⟩, false, false⟩

/-- A document whose sent time carries a sub-second component. -/
def nanoDoc : Document String String :=
  ⟨"aa", "bb", "cc", "1.5", "2", ⟨2009, 11, 10, 23, 0, 0, 500000000, 0⟩, false, false⟩

def intDoc : Document String Int :=
  ⟨"a", "b", "c", 42, -7, GoTime.zero, false, false⟩

def rowA : Row := ⟨"aa", "bb", "cc", "1,2", "2009-11-10T23:00:00Z", false, false⟩

/-- A model index holding two rows with the same id. -/
def rowDupState : ModelState := ⟨[rowA, rowA], [], []⟩

def okDocB : Document String String :=
  ⟨"zz", "bb", "cc", "1.5", "2", ⟨2009, 11, 10, 23, 0, 0, 0, 0⟩, false, false⟩

/-! ## The claims -/

/-- C1: the claim says a row whose decode fails is dropped from the output of
`docsFromResults`.  The code does the opposite: the output slice is pre-sized
to the row count and a failed decode only `continue`s, so the output always
has exactly one document per input row.  On a 3-row result set whose second
row has an unparsable coordinate field, the output has 3 documents, the
middle one a partially decoded document with identifier fields filled in,
latitude and longitude -1 (the error values `coordinatesFromString`
returned) and the remaining fields at their zero values. -/
theorem C1_failed_rows_not_dropped :
    (∀ (U F : Type) (P : Prims U F) (results : List Row),
        (docsFromResults P results).length = results.length) ∧
    docsFromResults strPrims [row1, rowBadCoord, row3] =
      [⟨"aa", "bb", "cc", "1", "2", ⟨2009, 11, 10, 23, 0, 0, 0, 0⟩, true, false⟩,
       ⟨"dd", "ee", "ff", "-1", "-1", GoTime.zero, false, false⟩,
       ⟨"gg", "hh", "ii", "3", "4", ⟨2009, 11, 10, 23, 0, 0, 0, 0⟩, false, true⟩] := by
  constructor
  · intro U F P results
    simp [docsFromResults, docPointers]
  · decide

/-- C2: the claim says a failed fetch makes `MarkDocRead` / `MarkDocDeleted`
return the fetch error without issuing the rewrite.  The code only logs the
fetch error and then dereferences the nil document pointer: on an id the
index does not hold, both mutations end in a nil dereference instead of
returning the error.  No rewrite is issued either way (the update journal
stays empty). -/
theorem C2_fetch_failure_nil_deref :
    MarkDocDeleted strPrims modelConn "aa" emptyModelState =
      (GoOutcome.nilDeref, ⟨[], [getDocQuery strPrims "aa"], []⟩) ∧
    MarkDocRead strPrims modelConn "aa" emptyModelState =
      (GoOutcome.nilDeref, ⟨[], [getDocQuery strPrims "aa"], []⟩) ∧
    (GetDoc strPrims modelConn "aa" emptyModelState).1 =
      (none, some (notFoundMessage strPrims "aa")) := by
  decide

/-- C3 counterexample: the encoded-then-decoded document is not equal to the
original for a document whose sent time has a nonzero sub-second component:
the RFC3339 encoding drops the nanoseconds, and the decoded time has
`nsec = 0` where the original had 500000000. -/
theorem C3_timeSent_not_roundtrip :
    docsFromResults strPrims [encodeRow strPrims nanoDoc] ≠ [nanoDoc] ∧
    (docsFromResults strPrims [encodeRow strPrims nanoDoc]).map (fun d => d.timeSent) =
      [⟨2009, 11, 10, 23, 0, 0, 0, 0⟩] ∧
    nanoDoc.timeSent.nsec = 500000000 := by
  decide

/-- C3 (amended): decoding the document produced by the encoder (the
`getUpdateJson` field map fed back through the `docsFromResults` field
parsing) reproduces the original document field for field, provided the
identifier and float primitives round-trip on its field values (the library
contract) and the sent time survives the seconds-precision RFC3339 encoding
— which a time with a nonzero sub-second component does not. -/
theorem C3_document_roundtrip {U F : Type} (P : Prims U F) (d : Document U F)
    (h : PrimsFaithful P d) :
    getUpdateJson P d = SolrUpdate.add (encodeRow P d) ∧
    docsFromResults P [encodeRow P d] = [d] := by
  refine ⟨rfl, ?_⟩
  simp [docsFromResults, docPointers, decodeRow_encodeRow P d h]

/-- C3 witness: the round-trip at a concrete document with a whole-second
sent time. -/
theorem C3_document_roundtrip_witness :
    docsFromResults strPrims [encodeRow strPrims okDoc] = [okDoc] :=
  (C3_document_roundtrip strPrims okDoc (by unfold PrimsFaithful; decide)).2

/-- C4: decoding the encoded coordinate string returns exactly the original
pair: the encoder joins the two formatted values with a single comma, and
whenever the float formatter satisfies the shortest-round-trip contract of
`strconv.FormatFloat(_, 'f', -1, 64)` on the two values (re-parsing yields
the identical value, and the output contains no comma), the decode returns
the original latitude and longitude with no error. -/
theorem C4_coordinate_roundtrip {U F : Type} (P : Prims U F) (d : Document U F)
    (hla : P.parseFloat (P.formatFloat d.latitude) = (d.latitude, none))
    (hlo : P.parseFloat (P.formatFloat d.longitude) = (d.longitude, none))
    (hca : ',' ∉ (P.formatFloat d.latitude).data)
    (hcb : ',' ∉ (P.formatFloat d.longitude).data) :
    coordinatesFromString P (getCoordinateString P d) =
      (d.latitude, d.longitude, none) ∧
    getCoordinateString P d =
      formatCoordinateFloat P d.latitude ++ "," ++ formatCoordinateFloat P d.longitude :=
  ⟨coordinates_roundtrip P d hla hlo hca hcb, rfl⟩

/-- C4 witness: the coordinate round-trip at a concrete integer-valued
instantiation of the float primitives. -/
theorem C4_coordinate_roundtrip_witness :
    coordinatesFromString intPrims (getCoordinateString intPrims intDoc) =
      (42, -7, none) :=
  (C4_coordinate_roundtrip intPrims intDoc
    (by decide) (by decide) (by decide) (by decide)).1

/-- C5: the mark mutations perform fetch-modify-rewrite flipping only the
targeted flag: for every state and id on which the fetch succeeds, the one
update issued is exactly the fetched document with the single flag set; and
starting from a stored document with both flags false, MarkRead then
MarkDeleted leaves the encoded document with both flags true, while
MarkDeleted alone leaves the stored document with `read` still false. -/
theorem C5_mark_flips_single_flag {U F : Type} (P : Prims U F) (d : Document U F)
    (h : PrimsFaithful P d) (hr : d.read = false) (_hd : d.deleted = false) :
    (∀ (st : ModelState) (i : U) (doc : Document U F),
        (GetDoc P modelConn i st).1 = (some doc, none) →
        (MarkDocRead P modelConn i st).2.updates =
          st.updates ++ [getUpdateJson P { doc with read := true }] ∧
        (MarkDocDeleted P modelConn i st).2.updates =
          st.updates ++ [getUpdateJson P { doc with deleted := true }]) ∧
    (MarkDocRead P modelConn d.id ⟨[encodeRow P d], [], []⟩).1 = .ok ∧
    (MarkDocRead P modelConn d.id ⟨[encodeRow P d], [], []⟩).2.rows =
      [encodeRow P { d with read := true }] ∧
    (MarkDocDeleted P modelConn d.id
        (MarkDocRead P modelConn d.id ⟨[encodeRow P d], [], []⟩).2).2.rows =
      [encodeRow P { d with read := true, deleted := true }] ∧
    (MarkDocDeleted P modelConn d.id ⟨[encodeRow P d], [], []⟩).2.rows =
      [encodeRow P { d with deleted := true }] ∧
    (encodeRow P { d with deleted := true }).read = false := by
  have hde : decodeRow P (encodeRow P d) = d := decodeRow_encodeRow P d h
  have hde' : decodeRow P (encodeRow P { d with read := true }) = { d with read := true } :=
    decodeRow_encodeRow P { d with read := true } h
  have hRead := markRead_model_singleton P d hde ⟨[encodeRow P d], [], []⟩ rfl
  refine ⟨?_, ?_, ?_, ?_, ?_, ?_⟩
  · intro st i doc hdoc
    exact ⟨markRead_model_updates P i st doc hdoc,
           markDeleted_model_updates P i st doc hdoc⟩
  · rw [hRead]
  · rw [hRead]
  · have hDel := markDeleted_model_singleton P { d with read := true } hde'
      ⟨[encodeRow P { d with read := true }], [getDocQuery P d.id],
       [getUpdateJson P { d with read := true }]⟩ rfl
    have hDel2 : MarkDocDeleted P modelConn d.id
        ⟨[encodeRow P { d with read := true }], [getDocQuery P d.id],
         [getUpdateJson P { d with read := true }]⟩ =
        (.ok, ⟨[encodeRow P { d with read := true, deleted := true }],
               [getDocQuery P d.id, getDocQuery P d.id],
               [getUpdateJson P { d with read := true },
                getUpdateJson P { d with read := true, deleted := true }]⟩) := hDel
    simp only [hRead, List.nil_append]
    rw [hDel2]
  · have hDel0 := markDeleted_model_singleton P d hde ⟨[encodeRow P d], [], []⟩ rfl
    rw [hDel0]
  · show d.read = false
    exact hr

/-- C5 witness: the MarkRead-then-MarkDeleted chain at a concrete document,
ending with both flags true in the stored row. -/
theorem C5_mark_flips_single_flag_witness :
    (MarkDocDeleted strPrims modelConn "zz"
        (MarkDocRead strPrims modelConn "zz" ⟨[encodeRow strPrims okDocB], [], []⟩).2).2.rows =
      [encodeRow strPrims { okDocB with read := true, deleted := true }] :=
  (C5_mark_flips_single_flag strPrims okDocB
    (by unfold PrimsFaithful; decide) rfl rfl).2.2.2.1

/-- C6: `GetDoc` returns exactly one of three outcomes — never both a
document and an error: the document is present exactly when the error is
absent, and when the transport succeeds, zero decoded rows yield the
not-found error, more than one decoded row yields the ambiguous-id error,
and exactly one decoded row is returned as the document with no error. -/
theorem C6_getDoc_three_outcomes {U F σ : Type} (P : Prims U F) (C : Conn σ)
    (i : U) (st : σ) :
    (((GetDoc P C i st).1.1).isSome = true ↔ (GetDoc P C i st).1.2 = none) ∧
    (∀ rows st', C.select (getDocQuery P i) st = (.ok rows, st') →
      ((docsFromResults P rows).length = 0 →
          GetDoc P C i st = ((none, some (notFoundMessage P i)), st')) ∧
      ((docsFromResults P rows).length > 1 →
          GetDoc P C i st = ((none, some (tooManyMessage P i)), st')) ∧
      (∀ d, docsFromResults P rows = [d] →
          GetDoc P C i st = ((some d, none), st'))) := by
  rcases hsel : C.select (getDocQuery P i) st with ⟨res, st0⟩
  cases res with
  | error e =>
    constructor
    · simp [GetDoc, hsel]
    · intro rows st' h
      simp at h
  | ok rows =>
    constructor
    · simp only [GetDoc, hsel]
      rcases hdocs : docsFromResults P rows with _ | ⟨d, ds⟩
      · simp
      · rcases ds with _ | ⟨d2, ds2⟩
        · simp
        · simp
    · intro rows' st' h
      rw [Prod.mk.injEq, Except.ok.injEq] at h
      rcases h with ⟨h1, h2⟩
      subst h1; subst h2
      refine ⟨?_, ?_, ?_⟩
      · intro hlen
        simp [GetDoc, hsel, hlen]
      · intro hlen
        simp [GetDoc, hsel, hlen]
      · intro d hd
        simp [GetDoc, hsel, hd]

/-- C6 witness: the single-row success outcome at a concrete state. -/
theorem C6_getDoc_three_outcomes_witness :
    GetDoc strPrims modelConn "aa" ⟨[rowA], [], []⟩ =
      ((some (decodeRow strPrims rowA), none),
       ⟨[rowA], [getDocQuery strPrims "aa"], []⟩) :=
  ((C6_getDoc_three_outcomes strPrims modelConn "aa" ⟨[rowA], [], []⟩).2
    [rowA] ⟨[rowA], [getDocQuery strPrims "aa"], []⟩ (by rfl)).2.2
    (decodeRow strPrims rowA) (by rfl)

/-- C7: `FindDocsNearby` issues exactly one query whose filter set is the
conjunction of the three predicates — recipient equality, deleted-not-true,
and the circular geofilter centred at the query point with the given radius
— with the row count capped at the caller-supplied maximum, and the
geofilter formats its centre coordinates and radius with
`formatCoordinateFloat`, the same formatter the coordinate encoder uses. -/
theorem C7_nearby_query_shape {U F : Type} (P : Prims U F) (recipient : U)
    (lat lon radiusKm : F) (maxRows : Nat) (st : ModelState) :
    (FindDocsNearby P modelConn recipient lat lon radiusKm maxRows st).2.selects =
      st.selects ++
        [{ q := ["*:*"],
           fq := [RECIPIENT ++ ":" ++ P.uuidToString recipient,
                  "!" ++ DELETED ++ ":" ++ "true",
                  formatGeofilter P lat lon radiusKm],
           rows := maxRows }] ∧
    formatGeofilter P lat lon radiusKm =
      "\x7b!geofilt sfield=" ++ LOCATION ++ " pt=" ++ formatCoordinateFloat P lat ++
        "," ++ formatCoordinateFloat P lon ++ " d=" ++
        formatCoordinateFloat P radiusKm ++ "\x7d" ∧
    (∀ d : Document U F, getCoordinateString P d =
        formatCoordinateFloat P d.latitude ++ "," ++ formatCoordinateFloat P d.longitude) ∧
    (∀ (qq : Query) (rows0 : List Row), (modelSelect qq rows0).length ≤ qq.rows) ∧
    (∀ (qq : Query) (rows0 : List Row) (r : Row), r ∈ modelSelect qq rows0 →
        ∀ f ∈ qq.fq, rowMatchesFilter r f = true) := by
  refine ⟨?_, rfl, fun d => rfl, modelSelect_length_le, ?_⟩
  · simp [FindDocsNearby, modelConn]
  · intro qq rows0 r hr f hf
    exact modelSelect_mem_filters qq rows0 r hr f hf

/-- C7 witness: the issued query at concrete arguments. -/
theorem C7_nearby_query_shape_witness :
    (FindDocsNearby strPrims modelConn "rr" "1" "2" "3" 5 emptyModelState).2.selects =
      [{ q := ["*:*"],
         fq := ["recipient_s:rr", "!deleted_b:true", formatGeofilter strPrims "1" "2" "3"],
         rows := 5 }] := by
  have h := (C7_nearby_query_shape strPrims "rr" "1" "2" "3" 5 emptyModelState).1
  simpa using h

/-- C8: `coordinatesFromString` fails exactly when splitting on the comma
does not yield two tokens or either token fails float parsing, and on
success it returns exactly what the float parser produced — no range
clamping of any kind. -/
theorem C8_decode_characterization {U F : Type} (P : Prims U F) (s : String) :
    ((splitOnComma s).length ≠ 2 →
        coordinatesFromString P s =
          (P.negOneF, P.negOneF, some "Failed to parse coordinates.")) ∧
    (∀ t0 t1, splitOnComma s = [t0, t1] →
        ((coordinatesFromString P s).2.2 = none ↔
            (P.parseFloat t0).2 = none ∧ (P.parseFloat t1).2 = none) ∧
        ((P.parseFloat t0).2 = none → (P.parseFloat t1).2 = none →
            coordinatesFromString P s =
              ((P.parseFloat t0).1, (P.parseFloat t1).1, none))) := by
  constructor
  · intro hlen
    cases hs : splitOnComma s with
    | nil => simp [coordinatesFromString, hs]
    | cons a l =>
      cases l with
      | nil => simp [coordinatesFromString, hs]
      | cons b l2 =>
        cases l2 with
        | nil => rw [hs] at hlen; simp at hlen
        | cons c l3 => simp [coordinatesFromString, hs]
  · intro t0 t1 hs
    rcases hp0 : P.parseFloat t0 with ⟨v0, e0⟩
    rcases hp1 : P.parseFloat t1 with ⟨v1, e1⟩
    cases e0 <;> cases e1 <;> simp [coordinatesFromString, hs, hp0, hp1]

/-- C8 witness: an out-of-range pair (latitude 91, longitude 190) decodes
successfully and is returned unchanged. -/
theorem C8_decode_characterization_witness :
    coordinatesFromString intPrims "91,190" = (91, 190, none) :=
  ((C8_decode_characterization intPrims "91,190").2 "91" "190" (by decide)).2
    (by decide) (by decide)

/-- C9 counterexample: `PurgeDocs` on the empty id list is not a no-op
against the index — it issues one update operation carrying an empty delete
list. -/
theorem C9_empty_purge_issues_op :
    (PurgeDocs strPrims modelConn [] emptyModelState).2.updates = [SolrUpdate.del []] ∧
    (PurgeDocs strPrims modelConn [] emptyModelState).2.updates ≠ [] := by
  decide

/-- C9 (amended): for every id list, the empty list included, `PurgeDocs`
issues exactly one delete operation covering exactly the canonical strings
of the given ids, and returns whatever the single update operation returned
— whole-operation success or failure, no per-id reporting; on the model
index the operation removes exactly the rows whose id is in the list. -/
theorem C9_purge_single_delete :
    (∀ (U F σ : Type) (P : Prims U F) (C : Conn σ) (ids : List U) (st : σ),
        PurgeDocs P C ids st =
          C.update (SolrUpdate.del (ids.map P.uuidToString)) true st) ∧
    (∀ (U F : Type) (P : Prims U F) (ids : List U) (st : ModelState),
        (PurgeDocs P modelConn ids st).2.updates =
          st.updates ++ [SolrUpdate.del (ids.map P.uuidToString)] ∧
        (PurgeDocs P modelConn ids st).2.rows =
          st.rows.filter (fun r => !((ids.map P.uuidToString).contains r.id)) ∧
        (PurgeDocs P modelConn ids st).1 = none) :=
  ⟨fun _ _ _ _ _ _ _ => rfl, fun _ _ _ _ _ => ⟨rfl, rfl, rfl⟩⟩

/-- C10: `GetDoc` sends its query with the row limit set to 1, so for every
connection that honours the requested row limit the decoded document list
has at most one element and the more-than-one (ambiguous-id) branch is
unreachable: whenever any row comes back — a duplicated id included — the
lookup succeeds with the single returned row decoded. -/
theorem C10_row_limit_one {U F σ : Type} (P : Prims U F) (C : Conn σ)
    (hC : ∀ (q : Query) (st : σ) (rows : List Row) (st' : σ),
        C.select q st = (.ok rows, st') → rows.length ≤ q.rows)
    (i : U) (st : σ) :
    (getDocQuery P i).rows = 1 ∧
    (∀ rows st', C.select (getDocQuery P i) st = (.ok rows, st') →
      (docsFromResults P rows).length ≤ 1 ∧
      (∀ r rs, rows = r :: rs →
        GetDoc P C i st = ((some (decodeRow P r), none), st'))) := by
  refine ⟨rfl, ?_⟩
  intro rows st' h
  have hlen : rows.length ≤ 1 := hC _ _ _ _ h
  have hdlen : (docsFromResults P rows).length = rows.length := by
    simp [docsFromResults, docPointers]
  refine ⟨by omega, ?_⟩
  intro r rs hr
  subst hr
  have hrs : rs = [] := by
    cases rs with
    | nil => rfl
    | cons a l => simp at hlen
  subst hrs
  simp [GetDoc, h, docsFromResults, docPointers]

/-- C10 witness: on a model index holding two rows with the same id, the
lookup succeeds with the single row the row-capped select returned. -/
theorem C10_row_limit_one_witness :
    GetDoc strPrims modelConn "aa" rowDupState =
      ((some (decodeRow strPrims rowA), none),
       ⟨[rowA, rowA], [getDocQuery strPrims "aa"], []⟩) :=
  ((C10_row_limit_one strPrims modelConn modelConn_honors_rows "aa" rowDupState).2
    [rowA] ⟨[rowA, rowA], [getDocQuery strPrims "aa"], []⟩ (by rfl)).2
    rowA [] rfl

end GeoNote
